import Mathlib

/-!
Verification of the weather-dashboard data-shaping core against its
natural-language specification.

The definitions below are a shallow embedding of the JavaScript sources
`src/js/utils.js`, `src/js/api.js`, `src/js/storage.js` and
`src/js/config.js`.  JavaScript numbers appearing as exact values
(epoch seconds, HTTP status codes, list indices) are modelled as
`Nat`/`Int`; values on which exact decimal arithmetic matters are
modelled as `ℚ` (every concrete input used below is exactly
representable as an IEEE double, so the rational model agrees with the
JavaScript float semantics at those points).  The runtime timezone is
fixed to UTC, so the calendar day obtained from `toISOString` and the
hour obtained from `getHours` are both computed from the raw epoch
value.  Fallible JavaScript code (thrown exceptions caught by
`try`/`catch`) is modelled by explicit case analysis on the outcome.
-/

/-- One element of the provider forecast time series (`list[i]` in the
forecast payload).  `dt` is the epoch timestamp in seconds; `payload`
stands for the remaining fields, which `filterDailyForecast` never
inspects. -/
structure Item where
  dt : Nat
  payload : Nat
deriving DecidableEq, Repr

/-- Calendar day of a sample: `new Date(item.dt * 1000).toISOString().split('T')[0]`,
collapsed to the day number since the epoch (timezone fixed to UTC). -/
def dayOf (it : Item) : Nat := it.dt / 86400

/-- Local hour of a sample: `new Date(item.dt * 1000).getHours()`
(timezone fixed to UTC). -/
def hourOf (it : Item) : Nat := it.dt % 86400 / 3600

/-- The argument of `filterDailyForecast`: JavaScript lets any value
through, and the function first checks `!forecastList || !Array.isArray(forecastList)`. -/
inductive ForecastInput where
  | notArray
  | arr (xs : List Item)

/-- One pass of `filterDailyForecast`'s loop structure
(`src/js/utils.js` lines 46-66 and 71-86 share this skeleton): walk the
samples, skip a sample whose day is already processed, otherwise push it
and mark the day when `cond` accepts it, and stop as soon as five
entries have been collected (`if (dailyData.length >= 5) break`). -/
def bucketPass (cond : Item → List Nat → Bool) :
    List Item → List Item → List Nat → List Item × List Nat
  | [], acc, seen => (acc, seen)
  | it :: rest, acc, seen =>
    if dayOf it ∈ seen then
      bucketPass cond rest acc seen
    else if cond it seen then
      let acc' := acc ++ [it]
      let seen' := dayOf it :: seen
      if 5 ≤ acc'.length then (acc', seen') else bucketPass cond rest acc' seen'
    else
      bucketPass cond rest acc seen

/-- The first-pass acceptance test of `filterDailyForecast`
(lines 55-61): `hour >= 11 && hour <= 15`, or else
`!processedDates.has(dateString) && hour >= 6`. -/
def firstPassCond (it : Item) (seen : List Nat) : Bool :=
  (decide (11 ≤ hourOf it) && decide (hourOf it ≤ 15))
    || (!(decide (dayOf it ∈ seen)) && decide (6 ≤ hourOf it))

/-- The second (backfill) pass of `filterDailyForecast` (lines 68-87)
accepts every sample of a not-yet-processed day.  (The `remainingDates`
map of the source is redundant: a day is entered there exactly when it
is entered in `processedDates`, which is checked first.) -/
def secondPassCond (_ : Item) (_ : List Nat) : Bool := true

/-- `filterDailyForecast` (`src/js/utils.js` lines 38-90): first pass
over the samples, then — when fewer than five entries were collected
and the input is non-empty — a backfill pass, then `slice(0, 5)`. -/
def filterDailyForecast (input : ForecastInput) : List Item :=
  match input with
  | .notArray => []
  | .arr xs =>
    let p1 := bucketPass firstPassCond xs [] []
    let dailyData :=
      if p1.1.length < 5 ∧ 0 < xs.length then
        (bucketPass secondPassCond xs p1.1 p1.2).1
      else p1.1
    dailyData.take 5

/-- Number of distinct calendar days represented in a sample list. -/
def numDays (xs : List Item) : Nat := ((xs.map dayOf).dedup).length

-- Sanity checks of the embedding on concrete traces of the source.
example : filterDailyForecast (.arr []) = [] := by decide
example : filterDailyForecast .notArray = [] := by decide

-- One day, samples at 09:00 / 12:00 / 18:00: the first pass takes the
-- 09:00 sample (hour >= 6) and marks the day, so 12:00 is skipped.
example :
    filterDailyForecast (.arr [⟨9 * 3600, 0⟩, ⟨12 * 3600, 1⟩, ⟨18 * 3600, 2⟩]) =
      [⟨9 * 3600, 0⟩] := by decide

-- One day, samples at 06:00 / 09:00: 06:00 selected.
example :
    filterDailyForecast (.arr [⟨6 * 3600, 0⟩, ⟨9 * 3600, 1⟩]) = [⟨6 * 3600, 0⟩] := by
  decide

-- One day with samples at 04:00 / 12:00: the noon sample is selected.
example :
    filterDailyForecast (.arr [⟨4 * 3600, 0⟩, ⟨12 * 3600, 1⟩]) = [⟨12 * 3600, 1⟩] := by
  decide

-- A day whose samples all fall before 06:00 is deferred to the
-- backfill pass and ends up after a later day: order is broken.
example :
    filterDailyForecast (.arr [⟨0, 0⟩, ⟨86400 + 12 * 3600, 1⟩]) =
      [⟨86400 + 12 * 3600, 1⟩, ⟨0, 0⟩] := by decide

/-! ## Storage layer (`src/js/storage.js`) -/

/-- A JSON value as far as the storage layer can observe one: the
stored history is read back with `JSON.parse`, so an arbitrary value —
not necessarily an array of strings — can come out. -/
inductive JVal where
  | str (s : String)
  | num (n : Int)
  | arr (xs : List JVal)

/-- State of the `weather_search_history` slot of `localStorage`:
missing (`getItem` returns `null`, or the stored text is empty and
hence falsy), present but not valid JSON (`JSON.parse` throws), or
present and parsed to a value. -/
inductive Cell where
  | absent
  | malformed
  | val (v : JVal)

/-- `getHistory` (`src/js/storage.js` lines 30-51).  Returns the list
the caller sees together with the storage state afterwards: a missing
slot yields `[]`; an unparsable slot throws inside `try`, is caught,
and yields `[]` with the slot left in place; a parsed non-array is
removed (`localStorage.removeItem`) and yields `[]`; a parsed array is
returned as is — its elements are not inspected. -/
def getHistory (cell : Cell) : List JVal × Cell :=
  match cell with
  | .absent => ([], .absent)
  | .malformed => ([], .malformed)
  | .val v =>
    match v with
    | .arr xs => (xs, .val (.arr xs))
    | _ => ([], .absent)

/-- `DEFAULT_SETTINGS.maxHistoryItems` (`src/js/config.js` line 14). -/
def maxHistoryItems : Nat := 5

/-- ECMAScript `String.prototype.toLowerCase`, modelled over the
character list (it agrees with the library function on the ASCII
strings the claims are about; the list form reduces in the kernel). -/
def jsToLower (s : String) : String := ⟨s.data.map Char.toLower⟩

/-- ECMAScript `String.prototype.trim`: strip leading and trailing
whitespace. -/
def jsTrim (s : String) : String :=
  ⟨((s.data.dropWhile Char.isWhitespace).reverse.dropWhile Char.isWhitespace).reverse⟩

/-- Whether a parsed history element is a string (a non-string element
makes `item.toLowerCase()` throw in `saveToHistory`'s filter). -/
def isStrVal : JVal → Bool
  | .str _ => true
  | _ => false

/-- The predicate of `saveToHistory`'s filter (line 12):
`item.toLowerCase() !== city.toLowerCase()`.  Only ever evaluated on
string elements; on a non-string the JavaScript original throws
instead, which the embedding handles in `saveToHistory` itself. -/
def keepEntry (city : String) : JVal → Bool
  | .str s => !(jsToLower s == jsToLower city)
  | _ => true

/-- `saveToHistory` (`src/js/storage.js` lines 3-28).  An empty `city`
is falsy, so the guard returns the current history unchanged.
Otherwise: read, drop case-insensitive matches, `unshift` the city,
truncate to `maxHistoryItems`, persist, return.  If any stored element
is not a string, the filter throws, the `catch` block calls
`getHistory()` again and returns its result without persisting. -/
def saveToHistory (city : String) (cell : Cell) : List JVal × Cell :=
  if city = "" then getHistory cell
  else
    let g := getHistory cell
    if g.1.all isStrVal then
      let truncated := (JVal.str city :: g.1.filter (keepEntry city)).take maxHistoryItems
      (truncated, Cell.val (.arr truncated))
    else
      getHistory g.2

/-- `removeFromHistoryByIndex` (`src/js/storage.js` lines 74-93):
out-of-bounds indices return the current list without persisting
anything; an in-bounds index removes exactly that entry
(`history.splice(index, 1)`) and persists the result. -/
def removeFromHistoryByIndex (index : Int) (cell : Cell) : List JVal × Cell :=
  let g := getHistory cell
  if index < 0 ∨ (g.1.length : Int) ≤ index then (g.1, g.2)
  else
    let newHistory := g.1.eraseIdx index.toNat
    (newHistory, Cell.val (.arr newHistory))

/-- A storage state whose history slot is either missing, unparsable,
or a parsed array — every state the store's own writes can produce. -/
def WellFormedCell : Cell → Prop
  | .val v => ∃ xs, v = JVal.arr xs
  | _ => True

/-! ## Weather client (`src/js/api.js`, `src/js/config.js`) -/

/-- `ERROR_MESSAGES` (`src/js/config.js` lines 38-44). -/
def MSG_CITY_NOT_FOUND : String :=
  "Kota tidak ditemukan. Coba gunakan nama kota yang lebih umum atau lengkap (contoh: Jakarta, Indonesia)."

def MSG_INVALID_API_KEY : String := "Kunci API tidak valid. Periksa konfigurasi Anda."

def MSG_RATE_LIMIT : String := "Terlalu banyak permintaan. Tunggu sebentar dan coba lagi."

def MSG_API_ERROR : String := "Terjadi kesalahan saat mengambil data cuaca. Silakan coba lagi nanti."

/-- Outcome of `await response.json()` on an error response: the body
may fail to parse, or parse with or without a `message` field. -/
inductive ErrorBody where
  | unparsable
  | parsed (message : Option String)

/-- The `switch (response.status)` of `handleAPIError`
(`src/js/api.js` lines 193-211), written with the literal status codes
from `HTTP_STATUS` (`src/js/config.js` lines 46-53). -/
def defaultErrorMessage (status : Nat) : String :=
  if status = 400 then MSG_CITY_NOT_FOUND
  else if status = 401 then MSG_INVALID_API_KEY
  else if status = 404 then MSG_CITY_NOT_FOUND
  else if status = 429 then MSG_RATE_LIMIT
  else if status = 500 then MSG_API_ERROR
  else MSG_API_ERROR

/-- `handleAPIError` (`src/js/api.js` lines 190-224): choose the
default message for the status, then, if the error body parses and its
`message` field is truthy (present and non-empty), use that message
instead.  The returned `Error` carries nothing but this string. -/
def handleAPIError (status : Nat) (body : ErrorBody) : String :=
  let errorMessage := defaultErrorMessage status
  match body with
  | .parsed (some m) => if m = "" then errorMessage else m
  | _ => errorMessage

/-- The spec's error taxonomy (§4.4 / §7). -/
inductive ErrKind where
  | cityNotFound
  | invalidCredential
  | rateLimited
  | networkOrServerError
deriving DecidableEq, Repr

/-- Modelled from the spec: the status → kind mapping the spec
prescribes ("400/404 → CityNotFound; 401 → InvalidCredential;
429 → RateLimited; 5xx or anything else → NetworkOrServerError"). -/
def specStatusKind (status : Nat) : ErrKind :=
  if status = 400 ∨ status = 404 then .cityNotFound
  else if status = 401 then .invalidCredential
  else if status = 429 then .rateLimited
  else .networkOrServerError

/-- The user-visible message the code associates with each error kind
(`ERROR_MESSAGES` in `src/js/config.js`). -/
def kindMessage : ErrKind → String
  | .cityNotFound => MSG_CITY_NOT_FOUND
  | .invalidCredential => MSG_INVALID_API_KEY
  | .rateLimited => MSG_RATE_LIMIT
  | .networkOrServerError => MSG_API_ERROR

/-- Modelled from the spec: the specificity ranking of §4.4
("authentication > not-found > rate-limit > generic server/network
error"). -/
def specPriority : ErrKind → Nat
  | .invalidCredential => 3
  | .cityNotFound => 2
  | .rateLimited => 1
  | .networkOrServerError => 0

/-- One leg of a pair of concurrently issued requests, as a promise
whose fate is already determined: the (virtual) time at which it
settles and the value or error it settles with.  Errors are classified
by the spec taxonomy. -/
structure Leg (α : Type) where
  settleTime : Nat
  result : Except ErrKind α

/-- ECMAScript `Promise.all` on two settled promises: fulfils with the
pair once both legs have fulfilled; rejects with the reason of the
first leg to reject, at that leg's settle time, without waiting for
the other leg. -/
def promiseAll2 {α β : Type} (p : Leg α) (q : Leg β) : Leg (α × β) :=
  match p.result, q.result with
  | .ok a, .ok b => ⟨max p.settleTime q.settleTime, .ok (a, b)⟩
  | .error e, .ok _ => ⟨p.settleTime, .error e⟩
  | .ok _, .error e => ⟨q.settleTime, .error e⟩
  | .error e₁, .error e₂ =>
    if q.settleTime < p.settleTime then ⟨q.settleTime, .error e₂⟩
    else ⟨p.settleTime, .error e₁⟩

/-- The fields of the current-conditions response that
`fetchWeatherData` reads (`currentWeather.name`,
`currentWeather.sys.country`); `payload` stands for the rest. -/
structure CurrentConditions where
  name : String
  country : String
  payload : Nat
deriving DecidableEq, Repr

/-- The object `fetchWeatherData` resolves with (`src/js/api.js`
lines 32-38).  The wall-clock `timestamp: Date.now()` field is
omitted from the model. -/
structure WeatherResult (β : Type) where
  current : CurrentConditions
  forecast : β
  city : String
  country : String

/-- `fetchWeatherData` (`src/js/api.js` lines 24-43): join the two
concurrently issued legs with `Promise.all`, then build the combined
result; any error is re-thrown unchanged. -/
def fetchWeatherData {β : Type} (cur : Leg CurrentConditions) (fc : Leg β) :
    Leg (WeatherResult β) :=
  let joined := promiseAll2 cur fc
  { settleTime := joined.settleTime,
    result := joined.result.map fun cf =>
      { current := cf.1, forecast := cf.2, city := cf.1.name, country := cf.1.country } }

/-- One element of the geocoding response array
(`{name, country, state?, lat, lon}`). -/
structure GeoLocation where
  name : String
  country : String
  state : Option String
  lat : ℚ
  lon : ℚ
deriving DecidableEq, Repr

/-- The shape `fetchCitySuggestions` maps each location to
(`src/js/api.js` lines 124-131). -/
structure Suggestion where
  name : String
  country : String
  state : String
  lat : ℚ
  lon : ℚ
  displayName : String
deriving DecidableEq, Repr

/-- JavaScript truthiness of `location.state`: `undefined` and the
empty string are falsy. -/
def truthyState : Option String → Bool
  | some s => !(s == "")
  | none => false

/-- The arrow function of `data.map(...)` in `fetchCitySuggestions`:
`state: location.state || ''` and
`displayName: name + (state ? ', ' + state : '') + ', ' + country`. -/
def toSuggestion (loc : GeoLocation) : Suggestion :=
  { name := loc.name
    country := loc.country
    state := if truthyState loc.state then loc.state.getD "" else ""
    lat := loc.lat
    lon := loc.lon
    displayName :=
      loc.name ++ (if truthyState loc.state then ", " ++ loc.state.getD "" else "")
        ++ ", " ++ loc.country }

/-- Everything the transport and provider can do to one geocoding
request: the fetch itself rejects; the response is non-OK (which makes
the code throw `handleAPIError`'s error); the body fails to parse; the
body parses but is not an array (so `data.map` throws); or the body is
an array of locations. -/
inductive SuggestOutcome where
  | networkFailure
  | httpFailure (status : Nat) (body : ErrorBody)
  | badJson
  | jsonNotArray
  | jsonArr (locs : List GeoLocation)

/-- The failure modes among `SuggestOutcome` — every case in which the
JavaScript `try` block throws. -/
def isSuggestFailure : SuggestOutcome → Bool
  | .jsonArr _ => false
  | _ => true

/-- `fetchCitySuggestions` (`src/js/api.js` lines 107-137).  The
second component records whether the transport was invoked at all:
falsy or shorter-than-2 (after `trim`) queries return `[]` before the
URL is even built.  Every thrown error is caught and converted to
`[]`.  The `limit` argument only enters the request URL and is
omitted from the model. -/
def suggestResponse : SuggestOutcome → List Suggestion
  | .jsonArr locs => locs.map toSuggestion
  | _ => []

/-- `fetchCitySuggestions` proper: the guard of lines 108-110, then the
request, `data.map(...)`, and the catch-all of line 135. -/
def fetchCitySuggestions (query : String) (outcome : SuggestOutcome) :
    List Suggestion × Bool :=
  if query = "" ∨ (jsTrim query).length < 2 then ([], false)
  else (suggestResponse outcome, true)

/-! ## Numeric helpers (`src/js/utils.js` lines 121-139) -/

/-- ECMAScript `Math.round`: the closest integer, ties toward +∞ —
that is, `⌊x + 1/2⌋`.  Written with `Rat.floor` so that it evaluates. -/
def jsMathRound (q : ℚ) : ℤ := (q + 1/2).floor

/-- `roundNumber` (`src/js/utils.js` lines 121-123):
`Math.round(value * 10^decimals) / 10^decimals`, in exact rational
arithmetic. -/
def roundNumber (value : ℚ) (decimals : Nat) : ℚ :=
  (jsMathRound (value * 10 ^ decimals) : ℚ) / 10 ^ decimals

-- Sanity checks of the embeddings.
example : getHistory (.val (.num 3)) = ([], .absent) := rfl
example : (saveToHistory "Bandung" (.val (.arr [.str "Jakarta"]))).1 =
    [.str "Bandung", .str "Jakarta"] := by
  simp [saveToHistory, getHistory, maxHistoryItems, keepEntry, isStrVal, jsToLower]
example : handleAPIError 404 .unparsable = MSG_CITY_NOT_FOUND := rfl
example : handleAPIError 404 (.parsed (some "boom")) = "boom" := rfl
example : fetchCitySuggestions "a" (.jsonArr [⟨"Aachen", "DE", none, 0, 0⟩]) = ([], false) := by
  decide

/-! ## Properties of `bucketPass` -/


theorem bucketPass_eq_append (c : Item → List Nat → Bool) (xs acc : List Item)
    (seen : List Nat) :
    ∃ t, (bucketPass c xs acc seen).1 = acc ++ t ∧ t.Sublist xs := by
  induction xs generalizing acc seen with
  | nil => exact ⟨[], by simp [bucketPass], List.nil_sublist _⟩
  | cons it rest ih =>
    by_cases h1 : dayOf it ∈ seen
    · obtain ⟨t, ht, hs⟩ := ih acc seen
      exact ⟨t, by simp [bucketPass, h1, ht], hs.cons it⟩
    · by_cases h2 : c it seen = true
      · by_cases h3 : 4 ≤ acc.length
        · exact ⟨[it], by simp [bucketPass, h1, h2, h3], (List.nil_sublist rest).cons₂ it⟩
        · obtain ⟨t, ht, hs⟩ := ih (acc ++ [it]) (dayOf it :: seen)
          refine ⟨it :: t, ?_, hs.cons₂ it⟩
          simp [bucketPass, h1, h2, h3, ht]
      · obtain ⟨t, ht, hs⟩ := ih acc seen
        exact ⟨t, by simp [bucketPass, h1, h2, ht], hs.cons it⟩

theorem bucketPass_seen_mono (c : Item → List Nat → Bool) (xs acc : List Item)
    (seen : List Nat) (d : Nat) (hd : d ∈ seen) : d ∈ (bucketPass c xs acc seen).2 := by
  induction xs generalizing acc seen with
  | nil => simpa [bucketPass] using hd
  | cons it rest ih =>
    by_cases h1 : dayOf it ∈ seen
    · simpa [bucketPass, h1] using ih acc seen hd
    · by_cases h2 : c it seen = true
      · by_cases h3 : 4 ≤ acc.length
        · simp [bucketPass, h1, h2, h3, List.mem_cons, hd]
        · simpa [bucketPass, h1, h2, h3] using
            ih (acc ++ [it]) (dayOf it :: seen) (List.mem_cons_of_mem _ hd)
      · simpa [bucketPass, h1, h2] using ih acc seen hd

theorem bucketPass_inv (c : Item → List Nat → Bool) (xs acc : List Item) (seen : List Nat)
    (hiff : ∀ d, d ∈ seen ↔ d ∈ acc.map dayOf) (hnd : (acc.map dayOf).Nodup) :
    (∀ d, d ∈ (bucketPass c xs acc seen).2 ↔ d ∈ ((bucketPass c xs acc seen).1.map dayOf))
      ∧ ((bucketPass c xs acc seen).1.map dayOf).Nodup := by
  induction xs generalizing acc seen with
  | nil => exact ⟨by simpa [bucketPass] using hiff, by simpa [bucketPass] using hnd⟩
  | cons it rest ih =>
    by_cases h1 : dayOf it ∈ seen
    · simpa [bucketPass, h1] using ih acc seen hiff hnd
    · have hnotmem : dayOf it ∉ acc.map dayOf := fun hmem => h1 ((hiff _).2 hmem)
      have hiff' : ∀ d, d ∈ dayOf it :: seen ↔ d ∈ (acc ++ [it]).map dayOf := by
        intro d
        simp only [List.mem_cons, List.map_append, List.map_cons, List.map_nil,
          List.mem_append, List.mem_singleton, hiff d]
        tauto
      have hnd' : ((acc ++ [it]).map dayOf).Nodup := by
        simp only [List.map_append, List.map_cons, List.map_nil]
        simp [List.nodup_append, hnd, hnotmem]
      by_cases h2 : c it seen = true
      · by_cases h3 : 4 ≤ acc.length
        · constructor
          · intro d
            have := hiff' d
            simpa [bucketPass, h1, h2, h3] using this
          · simpa [bucketPass, h1, h2, h3] using hnd'
        · have := ih (acc ++ [it]) (dayOf it :: seen) hiff' hnd'
          constructor
          · intro d
            have hd := this.1 d
            simpa [bucketPass, h1, h2, h3] using hd
          · simpa [bucketPass, h1, h2, h3] using this.2
      · have := ih acc seen hiff hnd
        constructor
        · intro d
          have hd := this.1 d
          simpa [bucketPass, h1, h2] using hd
        · simpa [bucketPass, h1, h2] using this.2

theorem bucketPass_length_le (c : Item → List Nat → Bool) (xs acc : List Item)
    (seen : List Nat) (h : acc.length < 5) : (bucketPass c xs acc seen).1.length ≤ 5 := by
  induction xs generalizing acc seen with
  | nil => simpa [bucketPass] using Nat.le_of_lt h
  | cons it rest ih =>
    by_cases h1 : dayOf it ∈ seen
    · simpa [bucketPass, h1] using ih acc seen h
    · by_cases h2 : c it seen = true
      · by_cases h3 : 4 ≤ acc.length
        · have : acc.length + 1 ≤ 5 := h
          simp [bucketPass, h1, h2, h3]
          omega
        · have h' : (acc ++ [it]).length < 5 := by
            simp only [List.length_append, List.length_singleton]
            omega
          simpa [bucketPass, h1, h2, h3] using ih (acc ++ [it]) (dayOf it :: seen) h'
      · simpa [bucketPass, h1, h2] using ih acc seen h

theorem bucketPass_cover (c : Item → List Nat → Bool) (P : Item → Prop)
    (hP : ∀ y s, P y → dayOf y ∉ s → c y s = true) (xs acc : List Item) (seen : List Nat)
    (hlt : (bucketPass c xs acc seen).1.length < 5) :
    ∀ y ∈ xs, P y → dayOf y ∈ (bucketPass c xs acc seen).2 := by
  induction xs generalizing acc seen with
  | nil => intro y hy; exact absurd hy (List.not_mem_nil y)
  | cons it rest ih =>
    intro y hy hPy
    by_cases h1 : dayOf it ∈ seen
    · rcases List.mem_cons.1 hy with rfl | hy'
      · simpa [bucketPass, h1] using
          bucketPass_seen_mono c rest acc seen (dayOf y) h1
      · have hlt' : (bucketPass c rest acc seen).1.length < 5 := by
          simpa [bucketPass, h1] using hlt
        simpa [bucketPass, h1] using ih acc seen hlt' y hy' hPy
    · by_cases h2 : c it seen = true
      · by_cases h3 : 4 ≤ acc.length
        · exfalso
          have hlen : (bucketPass c (it :: rest) acc seen).1.length = acc.length + 1 := by
            simp [bucketPass, h1, h2, h3]
          omega
        · have hlt' : (bucketPass c rest (acc ++ [it]) (dayOf it :: seen)).1.length < 5 := by
            simpa [bucketPass, h1, h2, h3] using hlt
          rcases List.mem_cons.1 hy with rfl | hy'
          · simpa [bucketPass, h1, h2, h3] using
              bucketPass_seen_mono c rest (acc ++ [y]) (dayOf y :: seen) (dayOf y)
                (List.mem_cons_self _ _)
          · simpa [bucketPass, h1, h2, h3] using
              ih (acc ++ [it]) (dayOf it :: seen) hlt' y hy' hPy
      · rcases List.mem_cons.1 hy with rfl | hy'
        · exact absurd (hP y seen hPy h1) h2
        · have hlt' : (bucketPass c rest acc seen).1.length < 5 := by
            simpa [bucketPass, h1, h2] using hlt
          simpa [bucketPass, h1, h2] using ih acc seen hlt' y hy' hPy

theorem bucketPass_stall (c : Item → List Nat → Bool) (xs acc : List Item)
    (seen : List Nat) (h : ∀ y ∈ xs, dayOf y ∈ seen) :
    bucketPass c xs acc seen = (acc, seen) := by
  induction xs with
  | nil => simp [bucketPass]
  | cons it rest ih =>
    have h1 : dayOf it ∈ seen := h it (List.mem_cons_self _ _)
    simp only [bucketPass, if_pos h1]
    exact ih fun y hy => h y (List.mem_cons_of_mem _ hy)

/-! ## Properties of `filterDailyForecast` -/

theorem nodup_subset_length_le {l₁ l₂ : List Nat} (h₁ : l₁.Nodup) (h₂ : l₁ ⊆ l₂) :
    l₁.length ≤ l₂.length :=
  (h₁.subperm h₂).length_le

theorem filterDailyForecast_arr (xs : List Item) :
    filterDailyForecast (.arr xs) =
      (if (bucketPass firstPassCond xs [] []).1.length < 5 ∧ 0 < xs.length then
        (bucketPass secondPassCond xs (bucketPass firstPassCond xs [] []).1
          (bucketPass firstPassCond xs [] []).2).1
      else (bucketPass firstPassCond xs [] []).1).take 5 := rfl

theorem filterDailyForecast_eq_cases (xs : List Item) :
    (filterDailyForecast (.arr xs) =
        (bucketPass secondPassCond xs (bucketPass firstPassCond xs [] []).1
          (bucketPass firstPassCond xs [] []).2).1
      ∧ (bucketPass firstPassCond xs [] []).1.length < 5 ∧ 0 < xs.length)
    ∨ (filterDailyForecast (.arr xs) = (bucketPass firstPassCond xs [] []).1
      ∧ ¬((bucketPass firstPassCond xs [] []).1.length < 5 ∧ 0 < xs.length)) := by
  have len1 : (bucketPass firstPassCond xs [] []).1.length ≤ 5 :=
    bucketPass_length_le firstPassCond xs [] [] (by norm_num)
  by_cases hc : (bucketPass firstPassCond xs [] []).1.length < 5 ∧ 0 < xs.length
  · left
    refine ⟨?_, hc⟩
    rw [filterDailyForecast_arr, if_pos hc]
    exact List.take_of_length_le
      (bucketPass_length_le secondPassCond xs _ _ hc.1)
  · right
    refine ⟨?_, hc⟩
    rw [filterDailyForecast_arr, if_neg hc]
    exact List.take_of_length_le len1

theorem firstPass_sublist (xs : List Item) :
    (bucketPass firstPassCond xs [] []).1.Sublist xs := by
  obtain ⟨t, ht, hs⟩ := bucketPass_eq_append firstPassCond xs [] []
  rw [ht]
  simpa using hs

theorem firstPass_inv (xs : List Item) :
    (∀ d, d ∈ (bucketPass firstPassCond xs [] []).2 ↔
        d ∈ ((bucketPass firstPassCond xs [] []).1.map dayOf))
      ∧ ((bucketPass firstPassCond xs [] []).1.map dayOf).Nodup :=
  bucketPass_inv firstPassCond xs [] [] (by simp) (by simp)

theorem secondPass_inv (xs : List Item) :
    (∀ d, d ∈ (bucketPass secondPassCond xs (bucketPass firstPassCond xs [] []).1
          (bucketPass firstPassCond xs [] []).2).2 ↔
        d ∈ ((bucketPass secondPassCond xs (bucketPass firstPassCond xs [] []).1
          (bucketPass firstPassCond xs [] []).2).1.map dayOf))
      ∧ ((bucketPass secondPassCond xs (bucketPass firstPassCond xs [] []).1
          (bucketPass firstPassCond xs [] []).2).1.map dayOf).Nodup :=
  bucketPass_inv secondPassCond xs _ _ (firstPass_inv xs).1 (firstPass_inv xs).2

theorem mem_filterDailyForecast (xs : List Item) :
    ∀ a ∈ filterDailyForecast (.arr xs), a ∈ xs := by
  rcases filterDailyForecast_eq_cases xs with ⟨heq, _⟩ | ⟨heq, _⟩
  · rw [heq]
    obtain ⟨t, ht, hs⟩ := bucketPass_eq_append secondPassCond xs
      (bucketPass firstPassCond xs [] []).1 (bucketPass firstPassCond xs [] []).2
    rw [ht]
    intro a ha
    rcases List.mem_append.1 ha with ha' | ha'
    · exact (firstPass_sublist xs).subset ha'
    · exact hs.subset ha'
  · rw [heq]
    exact fun a ha => (firstPass_sublist xs).subset ha

theorem nodup_filterDailyForecast (xs : List Item) :
    ((filterDailyForecast (.arr xs)).map dayOf).Nodup := by
  rcases filterDailyForecast_eq_cases xs with ⟨heq, _⟩ | ⟨heq, _⟩
  · rw [heq]; exact (secondPass_inv xs).2
  · rw [heq]; exact (firstPass_inv xs).2

theorem days_filterDailyForecast_subset (xs : List Item) :
    ((filterDailyForecast (.arr xs)).map dayOf) ⊆ (xs.map dayOf).dedup := by
  intro d hd
  rw [List.mem_dedup]
  obtain ⟨a, ha, rfl⟩ := List.mem_map.1 hd
  exact List.mem_map_of_mem dayOf (mem_filterDailyForecast xs a ha)

theorem length_filterDailyForecast (xs : List Item) :
    (filterDailyForecast (.arr xs)).length = min (numDays xs) 5 := by
  have hub : (filterDailyForecast (.arr xs)).length ≤ numDays xs := by
    have := nodup_subset_length_le (nodup_filterDailyForecast xs)
      (days_filterDailyForecast_subset xs)
    simpa [numDays] using this
  rcases filterDailyForecast_eq_cases xs with ⟨heq, hlt, hpos⟩ | ⟨heq, hc⟩
  · by_cases hq5 : (bucketPass secondPassCond xs (bucketPass firstPassCond xs [] []).1
        (bucketPass firstPassCond xs [] []).2).1.length < 5
    · have hcover := bucketPass_cover secondPassCond (fun _ => True)
        (fun _ _ _ _ => rfl) xs (bucketPass firstPassCond xs [] []).1
        (bucketPass firstPassCond xs [] []).2 hq5
      have hdays : (xs.map dayOf).dedup ⊆
          ((bucketPass secondPassCond xs (bucketPass firstPassCond xs [] []).1
            (bucketPass firstPassCond xs [] []).2).1.map dayOf) := by
        intro d hd
        obtain ⟨a, ha, rfl⟩ := List.mem_map.1 (List.mem_dedup.1 hd)
        exact ((secondPass_inv xs).1 _).1 (hcover a ha trivial)
      have hlb : numDays xs ≤ (filterDailyForecast (.arr xs)).length := by
        have := nodup_subset_length_le (List.nodup_dedup _) hdays
        rw [heq]
        simpa [numDays] using this
      have h3 : (filterDailyForecast (.arr xs)).length = numDays xs :=
        le_antisymm hub hlb
      have h4 : (filterDailyForecast (.arr xs)).length < 5 := by rw [heq]; exact hq5
      rw [h3] at h4 ⊢
      exact (min_eq_left h4.le).symm
    · have h5 : (filterDailyForecast (.arr xs)).length = 5 := by
        have := bucketPass_length_le secondPassCond xs
          (bucketPass firstPassCond xs [] []).1 (bucketPass firstPassCond xs [] []).2 hlt
        rw [heq]
        omega
      rw [h5] at hub ⊢
      exact (min_eq_right hub).symm
  · rcases Decidable.not_and_iff_or_not.1 hc with h5 | hx
    · have hlen : (filterDailyForecast (.arr xs)).length = 5 := by
        have := bucketPass_length_le firstPassCond xs [] [] (by norm_num)
        rw [heq]
        omega
      rw [hlen] at hub ⊢
      exact (min_eq_right hub).symm
    · have hxnil : xs = [] := by
        cases xs with
        | nil => rfl
        | cons a l => exact absurd (by simp) hx
      subst hxnil
      simp [filterDailyForecast, bucketPass, numDays]

theorem firstPassCond_of_hour (y : Item) (s : List Nat) (h6 : 6 ≤ hourOf y)
    (hns : dayOf y ∉ s) : firstPassCond y s = true := by
  simp [firstPassCond, h6, hns]

theorem order_filterDailyForecast (xs : List Item)
    (hsorted : List.Pairwise (fun a b => a.dt ≤ b.dt) xs)
    (hcov : ∀ x ∈ xs, ∃ y ∈ xs, dayOf y = dayOf x ∧ 6 ≤ hourOf y) :
    List.Pairwise (· < ·) ((filterDailyForecast (.arr xs)).map dayOf) := by
  have hout : filterDailyForecast (.arr xs) = (bucketPass firstPassCond xs [] []).1 := by
    rcases filterDailyForecast_eq_cases xs with ⟨heq, hlt, hpos⟩ | ⟨heq, _⟩
    · have hall : ∀ y ∈ xs, dayOf y ∈ (bucketPass firstPassCond xs [] []).2 := by
        intro y hy
        obtain ⟨z, hz, hdz, hhz⟩ := hcov y hy
        rw [← hdz]
        exact bucketPass_cover firstPassCond (fun i => 6 ≤ hourOf i)
          firstPassCond_of_hour xs [] [] hlt z hz hhz
      rw [heq, bucketPass_stall secondPassCond xs _ _ hall]
    · exact heq
  rw [hout]
  have hsl : List.Pairwise (fun a b => a.dt ≤ b.dt) (bucketPass firstPassCond xs [] []).1 :=
    List.Pairwise.sublist (firstPass_sublist xs) hsorted
  have hle : List.Pairwise (· ≤ ·) ((bucketPass firstPassCond xs [] []).1.map dayOf) := by
    rw [List.pairwise_map]
    exact hsl.imp fun h => Nat.div_le_div_right h
  have hne : List.Pairwise (· ≠ ·) ((bucketPass firstPassCond xs [] []).1.map dayOf) :=
    (firstPass_inv xs).2
  exact (hle.and hne).imp fun h => lt_of_le_of_ne h.1 h.2

/-! ## Claim theorems -/

theorem ratFloor_eq_intFloor (q : ℚ) : q.floor = ⌊q⌋ := by
  rw [Rat.floor_def', Rat.floor_def]

/-- C9 (amended): `roundNumber value decimals` is `n / 10^decimals` for
the unique integer `n` with `value*10^d - 1/2 < n ≤ value*10^d + 1/2`:
round-half-up (ties toward +∞) at the given decimal precision, not
round-half-away-from-zero. -/
theorem roundNumber_spec (v : ℚ) (d : ℕ) :
    ∃ n : ℤ, roundNumber v d = (n : ℚ) / 10 ^ d ∧
      v * 10 ^ d - 1/2 < (n : ℚ) ∧ (n : ℚ) ≤ v * 10 ^ d + 1/2 := by
  refine ⟨jsMathRound (v * 10 ^ d), rfl, ?_, ?_⟩
  · have h := Int.sub_one_lt_floor (v * 10 ^ d + 1/2)
    rw [jsMathRound, ratFloor_eq_intFloor]
    linarith
  · have h := Int.floor_le (v * 10 ^ d + 1/2)
    rw [jsMathRound, ratFloor_eq_intFloor]
    linarith

/-- C9 (counterexample): at the negative half-way input `-2.5` with
`decimals = 0` the code yields `-2` (the value nearer zero), not the
`-3` that round-half-away-from-zero demands. -/
theorem roundNumber_negative_half_counterexample :
    roundNumber (-5/2) 0 = -2 ∧ roundNumber (-5/2) 0 ≠ -3 := by
  constructor
  · rw [roundNumber, jsMathRound, ratFloor_eq_intFloor]
    norm_num
  · rw [roundNumber, jsMathRound, ratFloor_eq_intFloor]
    norm_num

/-- C4 (amended): the status switch realises exactly the spec's
status → kind mapping (the default message for a status is the message
of the spec-prescribed kind); a truthy body message replaces the
user-visible text; a missing, unparsable or empty body message leaves
the default.  The produced error consists of the message alone, so the
kind is not carried separately. -/
theorem handleAPIError_spec :
    (∀ status, defaultErrorMessage status = kindMessage (specStatusKind status))
    ∧ (∀ status m, m ≠ "" → handleAPIError status (.parsed (some m)) = m)
    ∧ (∀ status, handleAPIError status .unparsable = defaultErrorMessage status)
    ∧ (∀ status, handleAPIError status (.parsed none) = defaultErrorMessage status)
    ∧ (∀ status, handleAPIError status (.parsed (some "")) = defaultErrorMessage status) := by
  refine ⟨?_, ?_, fun _ => rfl, fun _ => rfl, fun status => by simp [handleAPIError]⟩
  · intro status
    unfold defaultErrorMessage specStatusKind
    split_ifs <;> simp_all [kindMessage]
  · intro status m hm
    simp [handleAPIError, hm]

theorem handleAPIError_spec_witness :
    ("oops" : String) ≠ "" ∧ handleAPIError 500 (.parsed (some "oops")) = "oops" :=
  ⟨by decide, handleAPIError_spec.2.1 500 "oops" (by decide)⟩

/-- C4 (counterexample): when the provider body carries a message, two
different statuses — which the claim maps to the distinct kinds
`InvalidCredential` and `CityNotFound` — produce identical errors, so
the error kind is not preserved for programmatic handling. -/
theorem handleAPIError_kind_collapse :
    handleAPIError 401 (.parsed (some "boom")) = handleAPIError 404 (.parsed (some "boom"))
      ∧ specStatusKind 401 ≠ specStatusKind 404 := by
  constructor
  · decide
  · decide

/-- C6 (amended): `getHistory` never raises and returns the parsed
array whatever its element types (the structural check is array-ness
only, not "sequence of strings"); a missing or unparsable slot reads as
the empty list (the unparsable slot is left in place), and a parsed
non-array is removed from storage. -/
theorem getHistory_spec :
    getHistory .absent = ([], .absent)
    ∧ getHistory .malformed = ([], .malformed)
    ∧ (∀ xs, getHistory (.val (.arr xs)) = (xs, .val (.arr xs)))
    ∧ (∀ s, getHistory (.val (.str s)) = ([], .absent))
    ∧ (∀ n, getHistory (.val (.num n)) = ([], .absent)) :=
  ⟨rfl, rfl, fun _ => rfl, fun _ => rfl, fun _ => rfl⟩

/-- C6 (counterexample): a stored array containing a non-string is not
an ordered sequence of strings, yet `getHistory` returns it unchanged
instead of the empty list. -/
theorem getHistory_non_string_array_counterexample :
    getHistory (.val (.arr [.num 7])) = ([.num 7], .val (.arr [.num 7]))
      ∧ ([JVal.num 7] : List JVal) ≠ [] := by
  refine ⟨rfl, ?_⟩
  intro h
  simpa using congrArg List.length h

/-- C7: an out-of-bounds index (negative, or at least the history
length) returns the current history, does not change the persisted
history, does not touch a well-formed stored cell at all, and throws
nothing; an in-bounds index removes exactly the entry at that index and
persists the result. -/
theorem removeFromHistoryByIndex_spec (index : Int) (cell : Cell) :
    ((index < 0 ∨ ((getHistory cell).1.length : Int) ≤ index) →
      removeFromHistoryByIndex index cell = ((getHistory cell).1, (getHistory cell).2)
      ∧ (getHistory (removeFromHistoryByIndex index cell).2).1 = (getHistory cell).1
      ∧ (WellFormedCell cell → (removeFromHistoryByIndex index cell).2 = cell))
    ∧ ((0 ≤ index ∧ index < ((getHistory cell).1.length : Int)) →
      removeFromHistoryByIndex index cell =
        ((getHistory cell).1.eraseIdx index.toNat,
          .val (.arr ((getHistory cell).1.eraseIdx index.toNat)))) := by
  constructor
  · intro h
    have heq : removeFromHistoryByIndex index cell = ((getHistory cell).1, (getHistory cell).2) := by
      rw [removeFromHistoryByIndex, if_pos h]
    refine ⟨heq, ?_, ?_⟩
    · rw [heq]
      cases cell with
      | absent => rfl
      | malformed => rfl
      | val v => cases v <;> rfl
    · intro hwf
      rw [heq]
      cases cell with
      | absent => rfl
      | malformed => rfl
      | val v =>
        obtain ⟨xs, rfl⟩ := hwf
        rfl
  · intro h
    rw [removeFromHistoryByIndex, if_neg]
    intro hcon
    rcases hcon with hc | hc <;> omega

theorem removeFromHistoryByIndex_spec_witness :
    ((-1 : Int) < 0 ∨ ((getHistory (.val (.arr [.str "a"]))).1.length : Int) ≤ -1)
      ∧ removeFromHistoryByIndex (-1) (.val (.arr [.str "a"])) =
          ((getHistory (.val (.arr [.str "a"]))).1, (getHistory (.val (.arr [.str "a"]))).2) :=
  ⟨Or.inl (by decide),
    ((removeFromHistoryByIndex_spec (-1) (.val (.arr [.str "a"]))).1 (Or.inl (by decide))).1⟩

/-- C8: every transport/provider failure mode of the autocomplete
request is swallowed into the empty suggestion list; the function is
total, so no error can propagate to the caller. -/
theorem fetchCitySuggestions_swallows_failures (query : String) (outcome : SuggestOutcome)
    (h : isSuggestFailure outcome = true) :
    (fetchCitySuggestions query outcome).1 = [] := by
  rw [fetchCitySuggestions]
  split_ifs
  · rfl
  · cases outcome <;> simp_all [isSuggestFailure, suggestResponse]

theorem fetchCitySuggestions_swallows_failures_witness :
    isSuggestFailure .networkFailure = true
      ∧ (fetchCitySuggestions "Paris" .networkFailure).1 = [] :=
  ⟨rfl, fetchCitySuggestions_swallows_failures "Paris" .networkFailure rfl⟩

/-- C10: a falsy query (the empty string) or a query whose trimmed
length is below 2 yields the empty suggestion list with no transport
request issued, whatever the transport would have answered. -/
theorem fetchCitySuggestions_short_query (query : String) (outcome : SuggestOutcome)
    (h : query = "" ∨ (jsTrim query).length < 2) :
    fetchCitySuggestions query outcome = ([], false) := by
  rw [fetchCitySuggestions, if_pos h]

theorem fetchCitySuggestions_short_query_witness :
    ((" a " : String) = "" ∨ (jsTrim " a ").length < 2)
      ∧ fetchCitySuggestions " a " (.jsonArr [⟨"Aachen", "DE", none, 0, 0⟩]) = ([], false) :=
  ⟨Or.inr (by decide),
    fetchCitySuggestions_short_query " a " (.jsonArr [⟨"Aachen", "DE", none, 0, 0⟩])
      (Or.inr (by decide))⟩

/-- C5 (amended): for a non-empty city and a persisted history whose
entries are all strings, `saveToHistory` removes the case-insensitive
matches, prepends the city, truncates to the configured maximum of 5,
persists exactly that list, and returns it. -/
theorem saveToHistory_spec (city : String) (cell : Cell) (hcity : city ≠ "")
    (hstr : ∀ j ∈ (getHistory cell).1, isStrVal j = true) :
    saveToHistory city cell =
      ((JVal.str city :: (getHistory cell).1.filter (keepEntry city)).take maxHistoryItems,
        .val (.arr ((JVal.str city ::
          (getHistory cell).1.filter (keepEntry city)).take maxHistoryItems))) := by
  have hall : (getHistory cell).1.all isStrVal = true := List.all_eq_true.2 hstr
  rw [saveToHistory, if_neg hcity, if_pos hall]

theorem saveToHistory_spec_witness :
    ("jakarta, id" : String) ≠ ""
    ∧ saveToHistory "jakarta, id" (.val (.arr [.str "Jakarta, ID"])) =
        ((JVal.str "jakarta, id" ::
            (getHistory (.val (.arr [.str "Jakarta, ID"]))).1.filter (keepEntry "jakarta, id")).take
              maxHistoryItems,
          .val (.arr ((JVal.str "jakarta, id" ::
            (getHistory (.val (.arr [.str "Jakarta, ID"]))).1.filter
              (keepEntry "jakarta, id")).take maxHistoryItems)))
    ∧ (saveToHistory "jakarta, id" (.val (.arr [.str "Jakarta, ID"]))).1 =
        [JVal.str "jakarta, id"] :=
  ⟨by decide,
    saveToHistory_spec "jakarta, id" (.val (.arr [.str "Jakarta, ID"])) (by decide)
      (by simp [getHistory, isStrVal]),
    by simp [saveToHistory, getHistory, keepEntry, isStrVal, jsToLower, maxHistoryItems]⟩

/-- C5 (counterexample): the empty string is a string, yet
`saveToHistory ""` hits the falsy-guard and returns the history
unchanged instead of prepending the city. -/
theorem saveToHistory_empty_city_counterexample :
    (saveToHistory "" (.val (.arr [.str "Jakarta, ID"]))).1 = [.str "Jakarta, ID"]
    ∧ (saveToHistory "" (.val (.arr [.str "Jakarta, ID"]))).1 ≠
        JVal.str "" :: [.str "Jakarta, ID"] := by
  refine ⟨rfl, ?_⟩
  intro h
  simpa [saveToHistory, getHistory] using congrArg List.length h

/-- C3 (amended): the two legs are joined with `Promise.all`: the
operation succeeds — at the later of the two settle times — exactly
when both legs succeed; when exactly one leg fails the operation fails
with that leg's error at that leg's settle time; when both fail it
fails with the error of the leg that settles first (first rejection
wins), not with the spec-priority-ranked error, and without waiting
for the other leg. -/
theorem fetchWeatherData_characterization {β : Type} (cur : Leg CurrentConditions)
    (fc : Leg β) :
    ((∃ w, (fetchWeatherData cur fc).result = .ok w) ↔
        (∃ c, cur.result = .ok c) ∧ (∃ f, fc.result = .ok f))
    ∧ (∀ c f, cur.result = .ok c → fc.result = .ok f →
        fetchWeatherData cur fc =
          ⟨max cur.settleTime fc.settleTime, .ok ⟨c, f, c.name, c.country⟩⟩)
    ∧ (∀ e f, cur.result = .error e → fc.result = .ok f →
        fetchWeatherData cur fc = ⟨cur.settleTime, .error e⟩)
    ∧ (∀ c e, cur.result = .ok c → fc.result = .error e →
        fetchWeatherData cur fc = ⟨fc.settleTime, .error e⟩)
    ∧ (∀ e₁ e₂, cur.result = .error e₁ → fc.result = .error e₂ →
        fetchWeatherData cur fc =
          if fc.settleTime < cur.settleTime then ⟨fc.settleTime, .error e₂⟩
          else ⟨cur.settleTime, .error e₁⟩) := by
  obtain ⟨t1, r1⟩ := cur
  obtain ⟨t2, r2⟩ := fc
  cases r1 <;> cases r2 <;>
    refine ⟨?_, ?_, ?_, ?_, ?_⟩ <;>
      simp [fetchWeatherData, promiseAll2, Except.map] <;>
        split_ifs <;> simp_all

theorem fetchWeatherData_characterization_witness :
    ((⟨5, .error .invalidCredential⟩ : Leg CurrentConditions).result =
        .error .invalidCredential)
    ∧ ((⟨1, .ok 42⟩ : Leg Nat).result = .ok 42)
    ∧ fetchWeatherData ⟨5, .error .invalidCredential⟩ (⟨1, .ok 42⟩ : Leg Nat) =
        ⟨5, .error .invalidCredential⟩ :=
  ⟨rfl, rfl,
    (fetchWeatherData_characterization ⟨5, .error .invalidCredential⟩
      (⟨1, .ok 42⟩ : Leg Nat)).2.2.1 .invalidCredential 42 rfl rfl⟩

/-- C3 (counterexample): with the current-conditions leg failing at
time 5 with the authentication error and the forecast leg failing at
time 1 with the generic error, `Promise.all` rejects at time 1 with the
generic error: the failure is neither the more specific of the two
errors nor produced after both legs have settled. -/
theorem fetchWeatherData_early_rejection_counterexample :
    (fetchWeatherData ⟨5, .error .invalidCredential⟩
        (⟨1, .error .networkOrServerError⟩ : Leg Nat)).result =
      .error .networkOrServerError
    ∧ (fetchWeatherData ⟨5, .error .invalidCredential⟩
        (⟨1, .error .networkOrServerError⟩ : Leg Nat)).settleTime = 1
    ∧ specPriority .invalidCredential > specPriority .networkOrServerError
    ∧ ErrKind.networkOrServerError ≠ ErrKind.invalidCredential
    ∧ (1 : Nat) < 5 :=
  ⟨rfl, rfl, by decide, by decide, by decide⟩

/-- C1 (amended): for an ascending forecast sample list over N distinct
calendar days, `filterDailyForecast` returns `min(N, 5)` entries, no
two of which share a calendar day, all drawn from the input (never
synthetic); the entries are in strictly ascending calendar-day order
whenever every represented day has at least one sample at local hour
≥ 6 (otherwise the backfill pass may append earlier days after later
ones); a non-array input yields the empty sequence. -/
theorem filterDailyForecast_correct (xs : List Item)
    (hsorted : List.Pairwise (fun a b => a.dt ≤ b.dt) xs) :
    (filterDailyForecast (.arr xs)).length = min (numDays xs) 5
      ∧ ((filterDailyForecast (.arr xs)).map dayOf).Nodup
      ∧ (∀ a ∈ filterDailyForecast (.arr xs), a ∈ xs)
      ∧ ((∀ x ∈ xs, ∃ y ∈ xs, dayOf y = dayOf x ∧ 6 ≤ hourOf y) →
          List.Pairwise (· < ·) ((filterDailyForecast (.arr xs)).map dayOf))
      ∧ filterDailyForecast .notArray = [] :=
  ⟨length_filterDailyForecast xs, nodup_filterDailyForecast xs, mem_filterDailyForecast xs,
    order_filterDailyForecast xs hsorted, rfl⟩

theorem filterDailyForecast_correct_witness :
    List.Pairwise (fun a b : Item => a.dt ≤ b.dt) [⟨43200, 0⟩, ⟨129600, 1⟩]
      ∧ (filterDailyForecast (.arr [⟨43200, 0⟩, ⟨129600, 1⟩])).length =
          min (numDays [⟨43200, 0⟩, ⟨129600, 1⟩]) 5 :=
  ⟨by decide, (filterDailyForecast_correct [⟨43200, 0⟩, ⟨129600, 1⟩] (by decide)).1⟩

/-- C1 (counterexample): an ascending two-day input whose first day has
only a midnight sample comes out as `[day 1, day 0]` — the backfill
pass appends the skipped earlier day after the later day, so the
result is not in chronological day order. -/
theorem filterDailyForecast_order_counterexample :
    List.Pairwise (fun a b : Item => a.dt ≤ b.dt) [⟨0, 0⟩, ⟨129600, 1⟩]
    ∧ filterDailyForecast (.arr [⟨0, 0⟩, ⟨129600, 1⟩]) = [⟨129600, 1⟩, ⟨0, 0⟩]
    ∧ ¬ List.Pairwise (· < ·)
        ((filterDailyForecast (.arr [⟨0, 0⟩, ⟨129600, 1⟩])).map dayOf) := by
  refine ⟨by decide, by decide, by decide⟩

/-- C2 (code evaluation at the failing input): for one day with samples
at 09:00, 12:00 and 18:00, the code selects the 09:00 sample — the
first sample with hour ≥ 6 — not the 12:00 sample inside the noon
window, although a noon-window sample is present; the `hour >= 11 &&
hour <= 15` branch is unreachable because the `hour >= 6` alternative
subsumes it for the first eligible sample of each day. -/
theorem filterDailyForecast_ignores_noon_window :
    filterDailyForecast (.arr [⟨9 * 3600, 0⟩, ⟨12 * 3600, 1⟩, ⟨18 * 3600, 2⟩]) =
        [⟨9 * 3600, 0⟩]
    ∧ (⟨9 * 3600, 0⟩ : Item) ≠ ⟨12 * 3600, 1⟩
    ∧ hourOf ⟨12 * 3600, 1⟩ = 12 := by
  refine ⟨by decide, by decide, by decide⟩
